import Mathlib

/-!
Verification of the MRI patient-flow discrete-event simulation
(`src/config.py`, `src/core/workflow.py`, `src/core/inpatient_workflow.py`,
`src/core/staff_controller.py`, `src/core/headless.py`, `src/analysis/tracker.py`).

The Python code is shallowly embedded: sampled durations become rational
parameters, the cooperative SimPy processes become explicit traces of atomic
actions (one action per statement between suspension points), and the
stateful observers (`SimStats`) become pure state-transition functions.
-/

namespace MRI

/-- Exam protocols, from `SCAN_PROTOCOLS` / `EXAM_TYPES` in `src/config.py`. -/
inductive ExamType
| Prostate
| Cardiac
| Body
| Brain
| Spine
| Knee
deriving DecidableEq, Repr

/-- `AVG_CYCLE_TIME = 45` from `src/config.py`. -/
def AVG_CYCLE_TIME : ℚ := 45

/-- `MAX_SCAN_TIME = 70` from `src/config.py`. -/
def MAX_SCAN_TIME : ℚ := 70

/-- `PROB_NO_SHOW = 0.05` from `src/config.py`. -/
def PROB_NO_SHOW : ℚ := 1/20

/-- `PROB_LATE = 0.20` from `src/config.py`. -/
def PROB_LATE : ℚ := 1/5

/-- `PRIORITY_INPATIENT = 0` from `src/config.py`. -/
def PRIORITY_INPATIENT : ℤ := 0

/-- `PRIORITY_OUTPATIENT = 1` from `src/config.py`. -/
def PRIORITY_OUTPATIENT : ℤ := 1

/-- `ROOM_311_CAPACITY = 2` from `src/config.py`. -/
def ROOM_311_CAPACITY : ℕ := 2

/-- `PROCESS_TIMES['no_show_wait'] = 15` from `src/config.py`. -/
def no_show_wait : ℚ := 15

/-!
## Magnet turnover (`patient_journey`, `src/core/workflow.py` lines 713-749)

After a completed outpatient scan the porter flips the bed.  The code
compares the magnet resource metadata `last_exam_type` with the exam type of
the patient just scanned; the embedding passes the three samples
(`bed_flip_fast`, `bed_flip_slow`, `settings_change`) as parameters.
-/

/-- Turnover duration computed by the bed-flip block of `patient_journey`:
`is_same_exam = (magnet_res.last_exam_type == patient.exam_type)`; if equal
the duration is the `bed_flip_fast` sample, otherwise
`max(bed_flip_slow sample, settings_change sample)`. -/
def turnover_duration (last_exam_type : Option ExamType) (exam_type : ExamType)
    (bed_flip_fast bed_flip_slow settings_change : ℚ) : ℚ :=
  if last_exam_type = some exam_type then bed_flip_fast
  else max bed_flip_slow settings_change

/-- C3: equal consecutive exam types give the fast bed-flip sample; differing
exam types give exactly `max(slow bed-flip sample, settings-change sample)`,
hence a duration at least both the cleaning sample and the reconfiguration
sample. -/
theorem C3_turnover_duration (last_exam_type : Option ExamType) (exam_type : ExamType)
    (fastS slowS settingsS : ℚ) :
    (last_exam_type = some exam_type →
      turnover_duration last_exam_type exam_type fastS slowS settingsS = fastS) ∧
    (last_exam_type ≠ some exam_type →
      turnover_duration last_exam_type exam_type fastS slowS settingsS = max slowS settingsS ∧
      slowS ≤ turnover_duration last_exam_type exam_type fastS slowS settingsS ∧
      settingsS ≤ turnover_duration last_exam_type exam_type fastS slowS settingsS) := by
  constructor
  · intro h
    simp [turnover_duration, h]
  · intro h
    simp [turnover_duration, h]

/-- C3 witness: a same-exam flip at samples (1, 2, 3) takes the fast sample,
and a cross-exam flip takes max of the slow and settings samples, bounding
both. -/
theorem C3_turnover_duration_witness :
    turnover_duration (some ExamType.Brain) ExamType.Brain 1 2 3 = 1 ∧
    (turnover_duration (some ExamType.Spine) ExamType.Brain 1 2 3 = max 2 3 ∧
      (2 : ℚ) ≤ turnover_duration (some ExamType.Spine) ExamType.Brain 1 2 3 ∧
      (3 : ℚ) ≤ turnover_duration (some ExamType.Spine) ExamType.Brain 1 2 3) :=
  ⟨(C3_turnover_duration (some ExamType.Brain) ExamType.Brain 1 2 3).1 rfl,
   (C3_turnover_duration (some ExamType.Spine) ExamType.Brain 1 2 3).2 (by decide)⟩

/-!
## Admission gatekeeper (`patient_generator`, `src/core/workflow.py` lines 770-833)

The generator loop is driven by the surrounding simulation: at each
iteration it reads `stats.patients_in_system`, draws a fate roll and an
exponential inter-arrival sample.  The embedding packages those per-iteration
inputs as a `Tick` stream and returns the list of admissions the generator
creates (ghost no-show slots and patient entities).
-/

/-- Per-iteration inputs of the generator loop: the tracked system population
at the top of the loop, the fate roll (`random.random()`), the sampled late
delay, and the sampled inter-arrival gap. -/
structure Tick where
  in_system : ℕ
  roll : ℚ
  late_delay_sample : ℚ
  inter_arrival : ℚ
deriving DecidableEq, Repr

/-- One admission produced by the generator: a ghost no-show slot
(`handle_no_show_gap` process, no patient entity) or a patient entity
(`Patient(p_id, ...)` plus `patient_journey` process). -/
inductive Admission
| ghost (time : ℚ)
| patient (time : ℚ) (is_late : Bool) (late_duration : ℚ)
deriving DecidableEq, Repr

/-- `queue_burden = (stats.patients_in_system * config.AVG_CYCLE_TIME) / magnet_count`
with `magnet_count = 2`, from the top of the generator loop. -/
def queue_burden (in_system : ℕ) : ℚ := (in_system * AVG_CYCLE_TIME) / 2

/-- The gatekeeper closing condition of `patient_generator`:
`(queue_burden > time_remaining) or (env.now > duration - MAX_SCAN_TIME and
stats.patients_in_system > 0)` where `time_remaining = duration - env.now`. -/
def gate_closes (now duration : ℚ) (in_system : ℕ) : Bool :=
  if queue_burden in_system > duration - now then true
  else if now > duration - MAX_SCAN_TIME ∧ 0 < in_system then true
  else false

/-- The fate branch of the loop body: `fate_roll < PROB_NO_SHOW` spawns
`handle_no_show_gap` (a ghost), otherwise a `Patient` is created, late iff
`fate_roll < PROB_NO_SHOW + PROB_LATE`. -/
def admit_of (now : ℚ) (tk : Tick) : Admission :=
  if tk.roll < PROB_NO_SHOW then Admission.ghost now
  else if tk.roll < PROB_NO_SHOW + PROB_LATE then
    Admission.patient now true tk.late_delay_sample
  else Admission.patient now false 0

/-- The `while True` loop of `patient_generator`: at each tick it first
evaluates the gatekeeper closing condition, then the `env.now >= duration`
shift-end check, and only then creates the admission and waits the sampled
inter-arrival before the next tick.  A `break` ends the generator for the
rest of the run. -/
def patient_generator (duration : ℚ) : ℚ → List Tick → List Admission
  | _, [] => []
  | now, tk :: rest =>
    if gate_closes now duration tk.in_system then []
    else if now ≥ duration then []
    else admit_of now tk :: patient_generator duration (now + tk.inter_arrival) rest

/-- C1: whenever, at the top of a generator tick, the queue burden
`(in_system x AVG_CYCLE_TIME) / 2` exceeds the remaining shift time, or the
remaining time is below the `MAX_SCAN_TIME` buffer while the system is
non-empty, the gate closes before any entity is created and no patient or
ghost admission is produced at that tick or any later tick of the run. -/
theorem C1_gatekeeper_closes_permanently (duration now : ℚ) (tk : Tick) (rest : List Tick)
    (h : (tk.in_system * AVG_CYCLE_TIME) / 2 > duration - now ∨
      (duration - now < MAX_SCAN_TIME ∧ 0 < tk.in_system)) :
    patient_generator duration now (tk :: rest) = [] := by
  have hc : gate_closes now duration tk.in_system = true := by
    rcases h with h | ⟨h1, h2⟩
    · simp only [gate_closes, queue_burden]
      rw [if_pos h]
    · simp only [gate_closes, queue_burden]
      split
      · rfl
      · rw [if_pos ⟨by linarith, h2⟩]
  simp [patient_generator, hc]

/-- C1 witness: the spec scenario with 5 patients in the system, average
cycle time 45, 2 channels and 60 minutes left gives burden 112.5 > 60, and
the generator admits nobody from that tick on. -/
theorem C1_gatekeeper_closes_permanently_witness :
    ((5 : ℚ) * AVG_CYCLE_TIME) / 2 > 720 - 660 ∧
    patient_generator 720 660 (⟨5, 1, 0, 30⟩ :: [⟨0, 1, 0, 30⟩, ⟨0, 1, 0, 30⟩]) = [] :=
  ⟨by norm_num [AVG_CYCLE_TIME],
   C1_gatekeeper_closes_permanently 720 660 ⟨5, 1, 0, 30⟩ [⟨0, 1, 0, 30⟩, ⟨0, 1, 0, 30⟩]
     (Or.inl (by norm_num [AVG_CYCLE_TIME]))⟩

/-!
## Priority resource queues

`src/core/engine.py` and `src/core/headless.py` build the porter, the
magnet-access gate and the two per-magnet resources as SimPy
PriorityResource instances.  SimPy keeps the waiting requests in a queue
sorted by the key `(priority, request time)` (a stable sort, so requests
with identical keys keep arrival order) and grants a freed unit to the head
of the queue.  The workflows request them with the configured priorities:
`magnet_access.request(priority=config.PRIORITY_OUTPATIENT)` in
`patient_journey` and `...request(priority=config.PRIORITY_INPATIENT)` in
`inpatient_workflow`.
-/

/-- A pending request ticket: its priority, the virtual time at which it was
issued, and its registration order (insertion sequence number, which breaks
ties deterministically). -/
structure Ticket where
  priority : ℤ
  time : ℚ
  order : ℕ
deriving DecidableEq, Repr

/-- Strict order on the sort key `(priority, request time)`. -/
def key_lt (a b : Ticket) : Prop :=
  a.priority < b.priority ∨ (a.priority = b.priority ∧ a.time < b.time)

instance (a b : Ticket) : Decidable (key_lt a b) := by
  unfold key_lt
  infer_instance

/-- Non-strict order on the sort key `(priority, request time)`. -/
def key_le (a b : Ticket) : Prop :=
  a.priority < b.priority ∨ (a.priority = b.priority ∧ a.time ≤ b.time)

instance (a b : Ticket) : Decidable (key_le a b) := by
  unfold key_le
  infer_instance

/-- Enqueue a request: the stable sort places a new ticket after every
queued ticket whose key is less than or equal to its own. -/
def enqueue_request (r : Ticket) : List Ticket → List Ticket
  | [] => [r]
  | a :: l => if key_lt r a then r :: a :: l else a :: enqueue_request r l

/-- A queue is sorted when each ticket's key is less than or equal to the
next one's. -/
def queue_sorted : List Ticket → Prop
  | [] => True
  | [_] => True
  | a :: b :: l => key_le a b ∧ queue_sorted (b :: l)

/-- When a unit frees, the resource grants it to the head of the queue. -/
def grant_next (q : List Ticket) : Option Ticket := q.head?

theorem key_le_trans {a b c : Ticket} (h1 : key_le a b) (h2 : key_le b c) :
    key_le a c := by
  rcases h1 with h1 | ⟨h1, h1t⟩ <;> rcases h2 with h2 | ⟨h2, h2t⟩
  · exact Or.inl (h1.trans h2)
  · exact Or.inl (h2 ▸ h1)
  · exact Or.inl (h1 ▸ h2)
  · exact Or.inr ⟨h1.trans h2, h1t.trans h2t⟩

theorem key_le_of_not_lt {a b : Ticket} (h : ¬ key_lt b a) : key_le a b := by
  unfold key_lt at h
  push_neg at h
  obtain ⟨h1, h2⟩ := h
  rcases lt_trichotomy a.priority b.priority with hp | hp | hp
  · exact Or.inl hp
  · exact Or.inr ⟨hp, h2 hp.symm⟩
  · exact absurd hp (not_lt.mpr h1)

theorem key_le_of_lt {a b : Ticket} (h : key_lt a b) : key_le a b := by
  rcases h with h | ⟨he, ht⟩
  · exact Or.inl h
  · exact Or.inr ⟨he, le_of_lt ht⟩

theorem queue_sorted_cons_le {a : Ticket} {l : List Ticket}
    (h : queue_sorted (a :: l)) : ∀ r ∈ l, key_le a r := by
  induction l generalizing a with
  | nil => intro r hr; cases hr
  | cons b l ih =>
    intro r hr
    obtain ⟨hab, hbl⟩ : key_le a b ∧ queue_sorted (b :: l) := h
    rcases List.mem_cons.mp hr with hr | hr
    · exact hr ▸ hab
    · exact key_le_trans hab (ih hbl r hr)

theorem enqueue_preserves_sorted (r : Ticket) (q : List Ticket)
    (h : queue_sorted q) : queue_sorted (enqueue_request r q) := by
  induction q with
  | nil => simp [enqueue_request, queue_sorted]
  | cons a l ih =>
    by_cases hlt : key_lt r a
    · have he : enqueue_request r (a :: l) = r :: a :: l := by
        simp [enqueue_request, hlt]
      rw [he]
      exact ⟨key_le_of_lt hlt, h⟩
    · have heq : enqueue_request r (a :: l) = a :: enqueue_request r l := by
        simp [enqueue_request, hlt]
      rw [heq]
      cases l with
      | nil => simp [enqueue_request, queue_sorted, key_le_of_not_lt hlt]
      | cons b l2 =>
        obtain ⟨hab, hbl⟩ : key_le a b ∧ queue_sorted (b :: l2) := h
        have hrec := ih hbl
        by_cases hlt2 : key_lt r b
        · have he2 : enqueue_request r (b :: l2) = r :: b :: l2 := by
            simp [enqueue_request, hlt2]
          rw [he2] at hrec ⊢
          exact ⟨key_le_of_not_lt hlt, hrec⟩
        · have he2 : enqueue_request r (b :: l2) = b :: enqueue_request r l2 := by
            simp [enqueue_request, hlt2]
          rw [he2] at hrec ⊢
          exact ⟨hab, hrec⟩

/-- C2: (i) a freed unit of a priority-managed resource goes to the queued
ticket with the least `(priority, request time)` key: the granted head is
bounded by every waiting ticket; (ii) among equal-priority waiters the
earlier requester sits ahead of the later one; (iii) an inpatient
magnet-access ticket (`PRIORITY_INPATIENT = 0`) enqueued at the same instant
as an outpatient ticket (`PRIORITY_OUTPATIENT = 1`) is granted before it,
whichever of the two was enqueued first. -/
theorem C2_priority_grant_order :
    (∀ (q : List Ticket) (hd : Ticket), queue_sorted q → grant_next q = some hd →
      ∀ r ∈ q, key_le hd r) ∧
    (∀ (p : ℤ) (t1 t2 : ℚ) (o1 o2 : ℕ), t1 ≤ t2 →
      enqueue_request ⟨p, t2, o2⟩ (enqueue_request ⟨p, t1, o1⟩ []) =
        [⟨p, t1, o1⟩, ⟨p, t2, o2⟩]) ∧
    (∀ (t : ℚ) (o1 o2 : ℕ),
      grant_next (enqueue_request ⟨PRIORITY_INPATIENT, t, o2⟩
          (enqueue_request ⟨PRIORITY_OUTPATIENT, t, o1⟩ [])) =
        some ⟨PRIORITY_INPATIENT, t, o2⟩ ∧
      grant_next (enqueue_request ⟨PRIORITY_OUTPATIENT, t, o2⟩
          (enqueue_request ⟨PRIORITY_INPATIENT, t, o1⟩ [])) =
        some ⟨PRIORITY_INPATIENT, t, o1⟩) := by
  refine ⟨?_, ?_, ?_⟩
  · intro q hd hs hg r hr
    cases q with
    | nil => cases hr
    | cons a l =>
      have ha : a = hd := by simpa [grant_next] using hg
      subst ha
      rcases List.mem_cons.mp hr with hr | hr
      · subst hr
        exact Or.inr ⟨rfl, le_refl _⟩
      · exact queue_sorted_cons_le hs r hr
  · intro p t1 t2 o1 o2 ht
    have hn : ¬ key_lt ⟨p, t2, o2⟩ ⟨p, t1, o1⟩ := by
      unfold key_lt
      push_neg
      exact ⟨le_refl _, fun _ => ht⟩
    simp [enqueue_request, hn]
  · intro t o1 o2
    constructor
    · have hk : key_lt ⟨PRIORITY_INPATIENT, t, o2⟩ ⟨PRIORITY_OUTPATIENT, t, o1⟩ := by
        unfold key_lt PRIORITY_INPATIENT PRIORITY_OUTPATIENT
        norm_num
      simp [enqueue_request, grant_next, hk]
    · have hn : ¬ key_lt ⟨PRIORITY_OUTPATIENT, t, o2⟩ ⟨PRIORITY_INPATIENT, t, o1⟩ := by
        unfold key_lt PRIORITY_INPATIENT PRIORITY_OUTPATIENT
        push_neg
        exact ⟨by norm_num, fun h => absurd h (by norm_num)⟩
      simp [enqueue_request, grant_next, hn]

/-- C2 witness: on the two-ticket queue built from an outpatient request and
a simultaneous inpatient request, the granted head is the inpatient ticket
and its key bounds both waiters; two equal-priority tickets are kept in
request-time order. -/
theorem C2_priority_grant_order_witness :
    (∀ r ∈ enqueue_request ⟨PRIORITY_INPATIENT, 10, 1⟩
        (enqueue_request ⟨PRIORITY_OUTPATIENT, 10, 0⟩ []),
      key_le ⟨PRIORITY_INPATIENT, 10, 1⟩ r) ∧
    enqueue_request (⟨0, 3, 7⟩ : Ticket) (enqueue_request ⟨0, 2, 6⟩ []) =
      [⟨0, 2, 6⟩, ⟨0, 3, 7⟩] ∧
    grant_next (enqueue_request ⟨PRIORITY_INPATIENT, 10, 1⟩
        (enqueue_request ⟨PRIORITY_OUTPATIENT, 10, 0⟩ [])) =
      some ⟨PRIORITY_INPATIENT, 10, 1⟩ := by
  refine ⟨?_, ?_, ?_⟩
  · exact C2_priority_grant_order.1
      (enqueue_request ⟨PRIORITY_INPATIENT, 10, 1⟩
        (enqueue_request ⟨PRIORITY_OUTPATIENT, 10, 0⟩ []))
      ⟨PRIORITY_INPATIENT, 10, 1⟩
      (by norm_num [enqueue_request, key_lt, queue_sorted, key_le,
        PRIORITY_INPATIENT, PRIORITY_OUTPATIENT])
      ((C2_priority_grant_order.2.2 10 0 1).1)
  · exact C2_priority_grant_order.2.1 0 2 3 6 7 (by norm_num)
  · exact (C2_priority_grant_order.2.2 10 0 1).1

/-!
## Population tracking (`SimStats`, `src/analysis/tracker.py` lines 128-176)

`log_state_change` maintains `patients_arrived` / `patients_in_system` on
the `arriving` and `exited` transitions (with a safety floor at zero) and
`log_patient_finished` increments `patients_completed`.  In the headless
workflows every `exited` state change is immediately followed by
`log_patient_finished` for the same patient with no intervening suspension
point (`patient_exit_process` lines 247-252, `inpatient_workflow` lines
123-139, where `is_at_target` is constantly true for `HeadlessEntity`), so
observable traces pair the two calls atomically.
-/

/-- Patient states used by `log_state_change`. -/
inductive PState
| arriving
| registered
| changing
| prepped
| scanning
| exited
deriving DecidableEq, Repr

/-- The population counters of `SimStats.__init__`. -/
structure SimStats where
  patients_arrived : ℤ
  patients_completed : ℤ
  patients_in_system : ℤ
deriving DecidableEq, Repr

/-- `SimStats()` starts all population counters at zero. -/
def sim_stats_init : SimStats := ⟨0, 0, 0⟩

/-- `SimStats.log_state_change`: on `arriving` it increments
`patients_arrived` and `patients_in_system`; on `exited` it decrements
`patients_in_system` and clamps it at the zero safety floor; any other
transition leaves the counters alone. -/
def log_state_change (s : SimStats) (new_state : PState) : SimStats :=
  if new_state = PState.arriving then
    { s with patients_arrived := s.patients_arrived + 1,
             patients_in_system := s.patients_in_system + 1 }
  else if new_state = PState.exited then
    { s with patients_in_system := max (s.patients_in_system - 1) 0 }
  else s

/-- `SimStats.log_patient_finished`: increments `patients_completed`. -/
def log_patient_finished (s : SimStats) : SimStats :=
  { s with patients_completed := s.patients_completed + 1 }

/-- A tracker call that touches the population counters. -/
inductive TrackCall
| state_change (new_state : PState)
| finished
deriving DecidableEq, Repr

/-- Apply a sequence of tracker calls to the stats state. -/
def apply_calls : SimStats → List TrackCall → SimStats
  | s, [] => s
  | s, TrackCall.state_change st :: rest => apply_calls (log_state_change s st) rest
  | s, TrackCall.finished :: rest => apply_calls (log_patient_finished s) rest

/-- One scheduler-observable block of tracker activity, as emitted by the
workflows: an admission logs `arriving`; a completion logs `exited` and then
immediately `log_patient_finished` (no suspension point between the two
calls in the headless workflows); every other state change is neither
`arriving` nor `exited`. -/
inductive Obs
| arrive
| exit_finish
| mid (st : PState)
deriving DecidableEq, Repr

/-- The tracker calls a block performs. -/
def obs_calls : Obs → List TrackCall
  | Obs.arrive => [TrackCall.state_change PState.arriving]
  | Obs.exit_finish => [TrackCall.state_change PState.exited, TrackCall.finished]
  | Obs.mid st => [TrackCall.state_change st]

/-- A run is well formed when, with `n` patients currently in flight, every
completion block matches an earlier admission (a patient only exits after
arriving) and intermediate state changes never fabricate an `arriving` or
`exited` transition. -/
def run_ok : List Obs → ℕ → Bool
  | [], _ => true
  | Obs.arrive :: rest, n => run_ok rest (n + 1)
  | Obs.exit_finish :: rest, n + 1 => run_ok rest n
  | Obs.exit_finish :: _, 0 => false
  | Obs.mid st :: rest, n =>
    if st = PState.arriving ∨ st = PState.exited then false else run_ok rest n

/-- The stats state after a run of observable blocks. -/
def run_stats (obs : List Obs) : SimStats :=
  apply_calls sim_stats_init (List.flatten (obs.map obs_calls))

theorem apply_calls_append (s : SimStats) (l1 l2 : List TrackCall) :
    apply_calls s (l1 ++ l2) = apply_calls (apply_calls s l1) l2 := by
  induction l1 generalizing s with
  | nil => rfl
  | cons c rest ih =>
    cases c with
    | state_change st => simpa [apply_calls] using ih (log_state_change s st)
    | finished => simpa [apply_calls] using ih (log_patient_finished s)

theorem run_stats_invariant_aux (obs : List Obs) :
    ∀ (n : ℕ) (s : SimStats), run_ok obs n = true →
      s.patients_in_system = (n : ℤ) →
      s.patients_arrived - s.patients_completed = (n : ℤ) →
      ∃ m : ℕ,
        (apply_calls s (List.flatten (obs.map obs_calls))).patients_in_system = (m : ℤ) ∧
        (apply_calls s (List.flatten (obs.map obs_calls))).patients_arrived -
          (apply_calls s (List.flatten (obs.map obs_calls))).patients_completed = (m : ℤ) := by
  induction obs with
  | nil =>
    intro n s _ hin harr
    exact ⟨n, by simpa [apply_calls] using hin, by simpa [apply_calls] using harr⟩
  | cons o rest ih =>
    intro n s hok hin harr
    cases o with
    | arrive =>
      have hok2 : run_ok rest (n + 1) = true := by simpa [run_ok] using hok
      have step :
          List.flatten ((Obs.arrive :: rest).map obs_calls) =
            TrackCall.state_change PState.arriving :: List.flatten (rest.map obs_calls) := by
        simp [obs_calls]
      rw [step]
      have := ih (n + 1) (log_state_change s PState.arriving) hok2
        (by simp [log_state_change, hin])
        (by simp [log_state_change]; linarith)
      simpa [apply_calls] using this
    | exit_finish =>
      cases n with
      | zero => simp [run_ok] at hok
      | succ n =>
        have hok2 : run_ok rest n = true := by simpa [run_ok] using hok
        have step :
            List.flatten ((Obs.exit_finish :: rest).map obs_calls) =
              TrackCall.state_change PState.exited :: TrackCall.finished ::
                List.flatten (rest.map obs_calls) := by
          simp [obs_calls]
        rw [step]
        have hin2 :
            (log_patient_finished (log_state_change s PState.exited)).patients_in_system
              = (n : ℤ) := by
          simp [log_state_change, log_patient_finished, hin]
        have harr2 :
            (log_patient_finished (log_state_change s PState.exited)).patients_arrived -
              (log_patient_finished (log_state_change s PState.exited)).patients_completed
              = (n : ℤ) := by
          simp [log_state_change, log_patient_finished]
          push_cast at harr ⊢
          linarith
        have := ih n (log_patient_finished (log_state_change s PState.exited)) hok2 hin2 harr2
        simpa [apply_calls] using this
    | mid st =>
      have hc : ¬ (st = PState.arriving ∨ st = PState.exited) := by
        by_contra hc
        simp [run_ok, hc] at hok
      have hok2 : run_ok rest n = true := by
        simpa [run_ok, hc] using hok
      have step :
          List.flatten ((Obs.mid st :: rest).map obs_calls) =
            TrackCall.state_change st :: List.flatten (rest.map obs_calls) := by
        simp [obs_calls]
      rw [step]
      push_neg at hc
      have hs : log_state_change s st = s := by
        simp [log_state_change, hc.1, hc.2]
      have := ih n (log_state_change s st) hok2 (by rw [hs]; exact hin)
        (by rw [hs]; exact harr)
      simpa [apply_calls] using this

/-- C4: along every well-formed run (each completion matches an earlier
admission, and the `exited` transition is logged back-to-back with the
finish call as in the headless workflows), the tracked
`patients_in_system` equals `patients_arrived - patients_completed` at
every observable instant, and it is never negative. -/
theorem C4_population_invariant (obs : List Obs) (h : run_ok obs 0 = true) :
    (run_stats obs).patients_in_system =
      (run_stats obs).patients_arrived - (run_stats obs).patients_completed ∧
    0 ≤ (run_stats obs).patients_in_system := by
  obtain ⟨m, hm1, hm2⟩ := run_stats_invariant_aux obs 0 sim_stats_init h rfl rfl
  refine ⟨?_, ?_⟩
  · simp only [run_stats]
    rw [hm1, hm2]
  · simp only [run_stats]
    rw [hm1]
    exact_mod_cast Int.ofNat_nonneg m

/-- C4 witness: a run that admits two patients, moves one through the
intermediate states and completes both keeps
`patients_in_system = patients_arrived - patients_completed ≥ 0`. -/
theorem C4_population_invariant_witness :
    run_ok [Obs.arrive, Obs.mid PState.changing, Obs.arrive, Obs.exit_finish,
      Obs.exit_finish] 0 = true ∧
    (run_stats [Obs.arrive, Obs.mid PState.changing, Obs.arrive, Obs.exit_finish,
        Obs.exit_finish]).patients_in_system =
      (run_stats [Obs.arrive, Obs.mid PState.changing, Obs.arrive, Obs.exit_finish,
          Obs.exit_finish]).patients_arrived -
        (run_stats [Obs.arrive, Obs.mid PState.changing, Obs.arrive, Obs.exit_finish,
            Obs.exit_finish]).patients_completed := by
  refine ⟨by decide, ?_⟩
  exact (C4_population_invariant [Obs.arrive, Obs.mid PState.changing, Obs.arrive,
    Obs.exit_finish, Obs.exit_finish] (by decide)).1

/-!
## Process traces (`src/core/workflow.py`)

The suspended SimPy processes are embedded as traces of atomic actions, one
action per statement between suspension points.  `Res` names the resources
a process can request; `Act` records resource requests and releases, magnet
pool checkout and check-in, timed waits, metadata writes and the creation
of a `Patient` entity.
-/

/-- The resources of `engine.py` / `headless.py` that the modelled traces
touch. -/
inductive Res
| porter
| backup_techs
| admin_ta
| magnet_access
| magnet
| change_room
| washroom
| room_311
deriving DecidableEq, Repr

/-- Atomic actions of the embedded processes. -/
inductive Act
| request (r : Res)
| release (r : Res)
| pool_get
| pool_put
| timeout (d : ℚ)
| log_flip (d : ℚ)
| log_noshow (d : ℚ)
| set_last_exam (v : Option ExamType)
| log_exited
| create_patient (p_id : ℕ)
deriving DecidableEq, Repr

/-- `handle_no_show_gap` (`src/core/workflow.py` lines 166-187): request a
magnet-access slot at outpatient priority, take a magnet from the pool, sit
idle for `wait_time`, log the waste, release the slot and return the magnet
to the pool. -/
def handle_no_show_gap (wait_time : ℚ) : List Act :=
  [Act.request Res.magnet_access, Act.pool_get, Act.timeout wait_time,
   Act.log_noshow wait_time, Act.release Res.magnet_access, Act.pool_put]

/-- Total time the no-show holds its magnet-access slot: the pool checkout
wait (zero when a magnet is available in the pool, which the matching
capacities of the access gate and the pool guarantee) plus the idle
`wait_time` timeout; there are no other timed statements between the access
grant and the release. -/
def no_show_access_hold (pool_wait wait_time : ℚ) : ℚ := pool_wait + wait_time

/-- The actions of a trace that create a `Patient` entity. -/
def creates_patient_entity (tr : List Act) : Bool :=
  tr.any fun a => match a with
    | Act.create_patient _ => true
    | _ => false

/-- The resources a trace requests besides the magnet-access slot and the
magnet pool. -/
def requests_other_resources (tr : List Act) : Bool :=
  tr.any fun a => match a with
    | Act.request r => decide (r ≠ Res.magnet_access)
    | _ => false

/-- C6: an admission that rolls no-show spawns the ghost process and never a
patient entity; the ghost's trace creates no patient, requests no resource
other than the magnet-access slot (plus its pool checkout), and holds the
slot for exactly the configured `no_show_wait` penalty window whenever the
pool checkout is immediate. -/
theorem C6_no_show_ghost (wait_time pool_wait now : ℚ) (tk : Tick) :
    (tk.roll < PROB_NO_SHOW → admit_of now tk = Admission.ghost now) ∧
    creates_patient_entity (handle_no_show_gap wait_time) = false ∧
    requests_other_resources (handle_no_show_gap wait_time) = false ∧
    (pool_wait = 0 → no_show_access_hold pool_wait wait_time = wait_time) := by
  refine ⟨?_, ?_, ?_, ?_⟩
  · intro h
    simp [admit_of, h]
  · rfl
  · rfl
  · intro h
    simp [no_show_access_hold, h]

/-- C6 witness: at the configured 15-minute penalty window, with the magnet
pool immediately serving the checkout, the ghost of a no-show roll (0.01)
holds the slot for exactly 15 minutes, creates no patient and touches no
other resource. -/
theorem C6_no_show_ghost_witness :
    admit_of 100 ⟨0, 1/100, 0, 30⟩ = Admission.ghost 100 ∧
    creates_patient_entity (handle_no_show_gap no_show_wait) = false ∧
    requests_other_resources (handle_no_show_gap no_show_wait) = false ∧
    no_show_access_hold 0 no_show_wait = no_show_wait := by
  obtain ⟨h1, h2, h3, h4⟩ := C6_no_show_ghost no_show_wait 0 100 ⟨0, 1/100, 0, 30⟩
  exact ⟨h1 (by norm_num [PROB_NO_SHOW]), h2, h3, h4 rfl⟩

/-!
## Last-exam metadata updates (`src/core/workflow.py` lines 698-768 and
`src/core/workflows/porter.py` lines 48-89)
-/

/-- The scan phase of `patient_journey` (lines 665-696): setup, scan and
exit timeouts on the seized magnet; it never touches `last_exam_type`. -/
def scan_phase (setupS scanS exitS : ℚ) : List Act :=
  [Act.timeout setupS, Act.timeout scanS, Act.timeout exitS]

/-- The bed-flip block of `patient_journey` (lines 700-768): after the
porter is granted, the flip runs for `turnover_duration`, then — at the end
of the flip and before the releases — `magnet_res.last_exam_type =
patient.exam_type`; finally the porter, the magnet, the access slot and the
pool item are released. -/
def bed_flip_block (last_exam_type : Option ExamType) (exam_type : ExamType)
    (fastS slowS settingsS : ℚ) : List Act :=
  [Act.request Res.porter,
   Act.timeout (turnover_duration last_exam_type exam_type fastS slowS settingsS),
   Act.log_flip (turnover_duration last_exam_type exam_type fastS slowS settingsS),
   Act.set_last_exam (some exam_type),
   Act.release Res.porter, Act.release Res.magnet,
   Act.release Res.magnet_access, Act.pool_put]

/-- `PorterWorkflow.clean_room` (`src/core/workflows/porter.py` lines
48-89): the same single metadata assignment, performed after the sampled
flip timeout. -/
def clean_room (last_exam_type : Option ExamType) (patient_prev_exam : ExamType)
    (fastS slowS : ℚ) : List Act :=
  [Act.request Res.porter,
   Act.timeout (if last_exam_type = some patient_prev_exam then fastS else slowS),
   Act.log_flip (if last_exam_type = some patient_prev_exam then fastS else slowS),
   Act.set_last_exam (some patient_prev_exam),
   Act.release Res.porter]

/-- The values successively assigned to a magnet's `last_exam_type` by a
trace. -/
def last_exam_writes (tr : List Act) : List (Option ExamType) :=
  tr.filterMap fun a => match a with
    | Act.set_last_exam v => some v
    | _ => none

/-- Index of the first `set_last_exam` action of a trace. -/
def write_index (tr : List Act) : ℕ :=
  tr.findIdx fun a => match a with
    | Act.set_last_exam _ => true
    | _ => false

/-- Index of the first flip-completion log of a trace. -/
def flip_index (tr : List Act) : ℕ :=
  tr.findIdx fun a => match a with
    | Act.log_flip _ => true
    | _ => false

/-- C9: each turnover assigns `last_exam_type` exactly once, to the exam
type of the patient just scanned, and only after the flip has completed;
the scan phase, the magnet-pool checkout and check-in, and the no-show gap
never write it.  The same holds for the refactored
`PorterWorkflow.clean_room`. -/
theorem C9_last_exam_single_write (last_exam_type : Option ExamType)
    (exam_type : ExamType) (fastS slowS settingsS setupS scanS exitS w : ℚ) :
    last_exam_writes (bed_flip_block last_exam_type exam_type fastS slowS settingsS) =
      [some exam_type] ∧
    flip_index (bed_flip_block last_exam_type exam_type fastS slowS settingsS) <
      write_index (bed_flip_block last_exam_type exam_type fastS slowS settingsS) ∧
    last_exam_writes (clean_room last_exam_type exam_type fastS slowS) =
      [some exam_type] ∧
    last_exam_writes (scan_phase setupS scanS exitS) = [] ∧
    last_exam_writes [Act.pool_get] = [] ∧
    last_exam_writes [Act.pool_put] = [] ∧
    last_exam_writes (handle_no_show_gap w) = [] := by
  refine ⟨rfl, ?_, rfl, rfl, rfl, rfl, rfl⟩
  show flip_index _ < write_index _
  simp [flip_index, write_index, bed_flip_block, List.findIdx_cons]

/-!
## Scan-tech break hand-off (`StaffManager.staff_break_cycle`,
`src/core/staff_controller.py` lines 50-147)

One iteration of the break loop for a scan tech, embedded as the ordered
list of atomic actions the coroutine performs between its suspension
points.
-/

/-- Atomic actions of a scan-tech break cycle iteration. -/
inductive BAct
| acquire_break_slot
| set_on_break (b : Bool)
| coverage_on
| seize_backup
| backup_busy (b : Bool)
| backup_cover
| wait_backup_in_position
| handoff_delay (d : ℚ)
| go_to_break
| break_for (d : ℚ)
| return_home_prim
| wait_primary_in_position
| coverage_off
| backup_return_home
| release_backup
| release_break_slot
deriving DecidableEq, Repr

/-- The `role == 'scan'` branch of one iteration of
`staff_break_cycle`: acquire the single break slot, mark the break,
set coverage, seize and lock a backup-tech capacity unit, send the backup
to the scan station, wait until it is in position, hold the fixed 2-minute
handover delay, only then leave for the break; on return, come back to the
station, wait until in position, hold the matching 2-minute delay, then
drop coverage, unlock and release the backup unit, and free the break
slot. -/
def scan_break_cycle (break_duration : ℚ) : List BAct :=
  [BAct.acquire_break_slot, BAct.set_on_break true, BAct.coverage_on,
   BAct.seize_backup, BAct.backup_busy true, BAct.backup_cover,
   BAct.wait_backup_in_position, BAct.handoff_delay 2,
   BAct.go_to_break, BAct.break_for break_duration,
   BAct.set_on_break false, BAct.return_home_prim, BAct.wait_primary_in_position,
   BAct.handoff_delay 2, BAct.coverage_off, BAct.backup_return_home,
   BAct.backup_busy false, BAct.release_backup, BAct.release_break_slot]

/-- Number of backup-capacity seizures in a trace. -/
def seize_count (tr : List BAct) : ℕ :=
  tr.countP fun a => match a with
    | BAct.seize_backup => true
    | _ => false

/-- Number of backup-capacity releases in a trace. -/
def release_count (tr : List BAct) : ℕ :=
  tr.countP fun a => match a with
    | BAct.release_backup => true
    | _ => false

/-- Whether the backup unit is held when the action at index `i` runs: some
seizure happened strictly before `i` and no release did. -/
def backup_held_at (tr : List BAct) (i : ℕ) : Bool :=
  release_count (tr.take i) < seize_count (tr.take i)

/-- Index of the first action matched by `p`. -/
def idx_of (tr : List BAct) (p : BAct → Bool) : ℕ := tr.findIdx p

/-- The handover-delay values of a trace, in order. -/
def delay_values (tr : List BAct) : List ℚ :=
  tr.filterMap fun a => match a with
    | BAct.handoff_delay d => some d
    | _ => none

/-- C5: in every scan-tech break iteration (i) the backup unit is seized
and the backup locked before the outgoing tech departs for the break; (ii)
the departure happens only after the backup reports in position and the
fixed 2-minute simultaneous-presence delay elapses; (iii) on return the
unit is released only after the returning tech is back in position and the
matching 2-minute delay elapses; and (iv) the single seized unit is held at
every action from the departure through the release, so the break is
covered with no gap. -/
theorem C5_break_handoff_no_gap (break_duration : ℚ) :
    seize_count (scan_break_cycle break_duration) = 1 ∧
    release_count (scan_break_cycle break_duration) = 1 ∧
    delay_values (scan_break_cycle break_duration) = [2, 2] ∧
    (idx_of (scan_break_cycle break_duration)
        (fun a => match a with | BAct.seize_backup => true | _ => false) <
      idx_of (scan_break_cycle break_duration)
        (fun a => match a with | BAct.wait_backup_in_position => true | _ => false) ∧
     idx_of (scan_break_cycle break_duration)
        (fun a => match a with | BAct.wait_backup_in_position => true | _ => false) <
      idx_of (scan_break_cycle break_duration)
        (fun a => match a with | BAct.handoff_delay _ => true | _ => false) ∧
     idx_of (scan_break_cycle break_duration)
        (fun a => match a with | BAct.handoff_delay _ => true | _ => false) <
      idx_of (scan_break_cycle break_duration)
        (fun a => match a with | BAct.go_to_break => true | _ => false)) ∧
    (idx_of (scan_break_cycle break_duration)
        (fun a => match a with | BAct.wait_primary_in_position => true | _ => false) <
      idx_of (scan_break_cycle break_duration)
        (fun a => match a with | BAct.release_backup => true | _ => false) ∧
     (scan_break_cycle break_duration).get? 13 = some (BAct.handoff_delay 2) ∧
     (13 : ℕ) <
      idx_of (scan_break_cycle break_duration)
        (fun a => match a with | BAct.release_backup => true | _ => false) ∧
     idx_of (scan_break_cycle break_duration)
        (fun a => match a with | BAct.wait_primary_in_position => true | _ => false) < 13) ∧
    (∀ i : ℕ,
      idx_of (scan_break_cycle break_duration)
          (fun a => match a with | BAct.go_to_break => true | _ => false) ≤ i →
      i < idx_of (scan_break_cycle break_duration)
          (fun a => match a with | BAct.release_backup => true | _ => false) →
      backup_held_at (scan_break_cycle break_duration) i = true) := by
  refine ⟨rfl, rfl, rfl, ⟨?_, ?_, ?_⟩, ⟨?_, rfl, ?_, ?_⟩, ?_⟩
  · simp [idx_of, scan_break_cycle, List.findIdx_cons]
  · simp [idx_of, scan_break_cycle, List.findIdx_cons]
  · simp [idx_of, scan_break_cycle, List.findIdx_cons]
  · simp [idx_of, scan_break_cycle, List.findIdx_cons]
  · simp [idx_of, scan_break_cycle, List.findIdx_cons]
  · simp [idx_of, scan_break_cycle, List.findIdx_cons]
  · intro i h1 h2
    simp only [idx_of, scan_break_cycle, List.findIdx_cons] at h1 h2
    norm_num at h1 h2
    interval_cases i <;> rfl

/-- C5 witness: in a 30-minute break iteration the backup unit is held
while the outgoing tech is on break (index 9, the `break_for` action). -/
theorem C5_break_handoff_no_gap_witness :
    backup_held_at (scan_break_cycle 30) 9 = true :=
  (C5_break_handoff_no_gap 30).2.2.2.2.2 9
    (by simp [idx_of, scan_break_cycle, List.findIdx_cons])
    (by simp [idx_of, scan_break_cycle, List.findIdx_cons])

/-!
## Overtime drain loop (`HeadlessSimulation.run`, `src/core/headless.py`
lines 300-307)

After `env.run(until=duration)` leaves the virtual clock at `duration`, the
driver drains the system in 1-minute steps:
`while stats.patients_in_system > 0 and env.now < overtime_limit:
env.run(until=env.now + 1)` with `overtime_limit = duration + 300`.  The
observed `patients_in_system` values form a stream indexed by the step
number; since the clock gains exactly one minute per iteration the loop
performs at most 300 iterations, which the embedding runs out explicitly.
-/

/-- The drain loop: at step `k`, if patients remain and the clock is below
the overtime limit, advance the clock one minute and continue. -/
def overtime_drain (counts : ℕ → ℕ) (overtime_limit : ℚ) : ℚ → ℕ → ℕ → ℚ
  | now, _, 0 => now
  | now, k, fuel + 1 =>
    if 0 < counts k ∧ now < overtime_limit then
      overtime_drain counts overtime_limit (now + 1) (k + 1) fuel
    else now

/-- Final virtual time of a headless run: the shift runs to `duration`,
then the drain loop runs from there against the `duration + 300` ceiling
(300 one-minute steps suffice to reach it). -/
def headless_final_time (duration : ℚ) (counts : ℕ → ℕ) : ℚ :=
  overtime_drain counts (duration + 300) duration 0 300

theorem overtime_drain_le (counts : ℕ → ℕ) (overtime_limit : ℚ) :
    ∀ (fuel : ℕ) (now : ℚ) (k : ℕ),
      overtime_drain counts overtime_limit now k fuel ≤ now + fuel := by
  intro fuel
  induction fuel with
  | zero => intro now k; simp [overtime_drain]
  | succ fuel ih =>
    intro now k
    by_cases h : 0 < counts k ∧ now < overtime_limit
    · have h2 : overtime_drain counts overtime_limit now k (fuel + 1)
          = overtime_drain counts overtime_limit (now + 1) (k + 1) fuel := by
        simp [overtime_drain, h]
      rw [h2]
      have h3 := ih (now + 1) (k + 1)
      push_cast
      push_cast at h3
      linarith
    · have h2 : overtime_drain counts overtime_limit now k (fuel + 1) = now := by
        simp [overtime_drain, h]
      rw [h2]
      push_cast
      have hf : (0 : ℚ) ≤ (fuel : ℚ) := Nat.cast_nonneg _
      linarith

/-- C8: whatever in-system populations the drain loop observes, the final
virtual time of a headless run never exceeds the hard safety ceiling
`duration + 300` plus one 1-minute drain step, even when patients are still
in the system at every step. -/
theorem C8_overtime_safety_ceiling (duration : ℚ) (counts : ℕ → ℕ) :
    headless_final_time duration counts ≤ duration + 300 + 1 := by
  have h := overtime_drain_le counts (duration + 300) 300 duration 0
  unfold headless_final_time
  calc overtime_drain counts (duration + 300) duration 0 300 ≤ duration + 300 := by
        exact_mod_cast h
    _ ≤ duration + 300 + 1 := by linarith

/-!
## Headless generator invocation (`src/core/headless.py` line 298)

`HeadlessSimulation.run` starts the admission generator with
`patient_generator(env, staff_dict, resources, stats, renderer, duration,
patient_class=HeadlessPatient)`, importing `patient_generator` from
`src.core.workflow`, whose signature
(`src/core/workflow.py` line 770) is
`patient_generator(env, staff_dict, resources, stats, renderer, duration)`
with no keyword parameters beyond the six positional ones.  The embedding
models Python call binding: a call with `n` positional arguments and a set
of keyword arguments binds only when each keyword names a formal parameter
not already bound positionally.
-/

/-- Python call binding: `n_pos` positional arguments fill the first
formal parameters; every keyword argument must name one of the remaining
formal parameters, otherwise the call raises TypeError. -/
def py_call_binds (params : List String) (n_pos : ℕ) (kwargs : List String) : Bool :=
  decide (n_pos ≤ params.length) &&
    kwargs.all fun k => (params.drop n_pos).contains k

/-- The formal parameter list of `patient_generator` in
`src/core/workflow.py`. -/
def patient_generator_params : List String :=
  ["env", "staff_dict", "resources", "stats", "renderer", "duration"]

/-- Whether the generator call of `HeadlessSimulation.run` (six positional
arguments plus the keyword `patient_class`) binds against
`workflow.patient_generator`. -/
def headless_generator_call_binds : Bool :=
  py_call_binds patient_generator_params 6 ["patient_class"]

/-- C7 (code bug witness): the headless driver's generator call does not
bind — `patient_class` names no formal parameter of
`workflow.patient_generator` — so every `HeadlessSimulation.run` raises
TypeError at startup and produces neither a transition sequence nor final
metrics, for any configuration and seed. -/
theorem C7_headless_generator_call_fails :
    headless_generator_call_binds = false := by decide

/-!
## Room 311 holding capacity (`inpatient_workflow`,
`src/core/inpatient_workflow.py` lines 15-151)

The whole inpatient workflow body sits inside
`with room_311_res.request() as req:`, entered right after the arrival is
logged; the holding-slot unit is therefore held from before the holding
prep until the magnet has been returned to the pool, and released only at
the `with` exit.  Admission itself (`set_state('arriving')` and its
`log_state_change`) happens before the `request()`, so an arriving
inpatient does not yet hold a slot.
-/

/-- Atomic actions of the inpatient workflow, in source order. -/
inductive IAct
| log_arriving
| request_room_311
| holding_prep (d : ℚ)
| request_access
| pool_get
| request_magnet
| bed_transfer (d : ℚ)
| scan (d : ℚ)
| request_porter
| log_exited
| release_porter
| release_magnet
| release_access
| pool_put
| release_room_311
deriving DecidableEq, Repr

/-- The `inpatient_workflow` coroutine as an action trace: arrival log,
Room 311 request, holding prep, priority magnet access, pool checkout,
magnet seize, bed transfer, scan, porter-escorted exit (the `exited` state
change), then the releases, the pool check-in and finally — at the `with`
exit — the Room 311 release. -/
def inpatient_workflow (prepS transferS scanS : ℚ) : List IAct :=
  [IAct.log_arriving, IAct.request_room_311, IAct.holding_prep prepS,
   IAct.request_access, IAct.pool_get, IAct.request_magnet,
   IAct.bed_transfer transferS, IAct.scan scanS, IAct.request_porter,
   IAct.log_exited, IAct.release_porter, IAct.release_magnet,
   IAct.release_access, IAct.pool_put, IAct.release_room_311]

/-- Whether the Room 311 unit is held when the action at index `i` runs. -/
def room_311_held_at (tr : List IAct) (i : ℕ) : Bool :=
  (tr.take i).countP (fun a => match a with
    | IAct.release_room_311 => true
    | _ => false) <
  (tr.take i).countP (fun a => match a with
    | IAct.request_room_311 => true
    | _ => false)

/-- Index of the first action matched by `p` in an inpatient trace. -/
def iidx_of (tr : List IAct) (p : IAct → Bool) : ℕ := tr.findIdx p

/-- Progress of one inpatient through the workflow, as observed by the
Room 311 resource: `admitted` covers the arrival log up to the pending
`request()`, `holding` covers the whole `with` body (prep, scan, exit walk,
magnet return), `done` is after the `with` exit released the unit. -/
inductive IPhase
| admitted
| holding
| done
deriving DecidableEq, Repr

/-- Scheduler-level events of the Room 311 state machine: the generator
admits an inpatient (nothing gates this on Room 311), the resource grants a
slot to the longest-waiting admitted inpatient, or a holding inpatient
finishes its workflow and releases the slot. -/
inductive IEvent
| intake
| grant_slot
| finish_one
deriving DecidableEq, Repr

/-- Numbers of inpatients in each phase. -/
structure Room311State where
  admitted : ℕ
  holding : ℕ
  done : ℕ
deriving DecidableEq, Repr

/-- Initial Room 311 state: nobody admitted. -/
def room_311_init : Room311State := ⟨0, 0, 0⟩

/-- One scheduler event: a slot is granted only when a waiting inpatient
exists and fewer than `ROOM_311_CAPACITY` units are out; a finish requires
an inpatient in the holding phase. -/
def room_311_step (s : Room311State) : IEvent → Option Room311State
  | IEvent.intake => some { s with admitted := s.admitted + 1 }
  | IEvent.grant_slot =>
    if 0 < s.admitted ∧ s.holding < ROOM_311_CAPACITY then
      some ⟨s.admitted - 1, s.holding + 1, s.done⟩
    else none
  | IEvent.finish_one =>
    if 0 < s.holding then some ⟨s.admitted, s.holding - 1, s.done + 1⟩ else none

/-- Run a sequence of scheduler events. -/
def room_311_exec : Room311State → List IEvent → Option Room311State
  | s, [] => some s
  | s, e :: rest =>
    match room_311_step s e with
    | some s2 => room_311_exec s2 rest
    | none => none

/-- Inpatients currently anywhere between admission and exit: the claim's
measure counts both the ones waiting for a holding slot (already admitted
and logged `arriving`) and the ones inside the `with` body. -/
def between_admission_and_exit (s : Room311State) : ℕ := s.admitted + s.holding

/-- C10 counterexample: three inpatient admissions in a row — nothing in
`patient_generator` or `inpatient_workflow` gates admission on Room 311 —
reach a state in which three inpatients are simultaneously between
admission and exit, refuting the claim's bound of two. -/
theorem C10_three_admitted_inpatients :
    room_311_exec room_311_init [IEvent.intake, IEvent.intake, IEvent.intake] =
      some ⟨3, 0, 0⟩ ∧
    ¬ between_admission_and_exit ⟨3, 0, 0⟩ ≤ 2 := by decide

theorem room_311_holding_le_capacity (events : List IEvent) :
    ∀ s s2, room_311_exec s events = some s2 →
      s.holding ≤ ROOM_311_CAPACITY → s2.holding ≤ ROOM_311_CAPACITY := by
  induction events with
  | nil =>
    intro s s2 h hle
    simp [room_311_exec] at h
    exact h ▸ hle
  | cons e rest ih =>
    intro s s2 h hle
    cases e with
    | intake =>
      simp only [room_311_exec, room_311_step] at h
      exact ih _ s2 h hle
    | grant_slot =>
      by_cases hcond : 0 < s.admitted ∧ s.holding < ROOM_311_CAPACITY
      · have h2 : room_311_exec ⟨s.admitted - 1, s.holding + 1, s.done⟩ rest = some s2 := by
          simpa [room_311_exec, room_311_step, hcond] using h
        refine ih _ s2 h2 ?_
        show s.holding + 1 ≤ ROOM_311_CAPACITY
        omega
      · have hnone : room_311_exec s (IEvent.grant_slot :: rest) = none := by
          simp [room_311_exec, room_311_step, hcond]
        rw [hnone] at h
        cases h
    | finish_one =>
      by_cases hcond : 0 < s.holding
      · have h2 : room_311_exec ⟨s.admitted, s.holding - 1, s.done + 1⟩ rest = some s2 := by
          simpa [room_311_exec, room_311_step, hcond] using h
        refine ih _ s2 h2 ?_
        show s.holding - 1 ≤ ROOM_311_CAPACITY
        omega
      · have hnone : room_311_exec s (IEvent.finish_one :: rest) = none := by
          simp [room_311_exec, room_311_step, hcond]
        rw [hnone] at h
        cases h

/-- C10 amended: every inpatient holds one Room 311 unit continuously from
before the holding-room prep until after the `exited` transition and the
magnet's return to the pool (the unit is requested before the prep,
released last, and held at every action in between), so at most
`ROOM_311_CAPACITY = 2` inpatients can simultaneously be between the start
of holding-room prep and the end of their workflow; additional admitted
inpatients wait for a slot, already inside the system. -/
theorem C10_room_311_two_holding (prepS transferS scanS : ℚ) (events : List IEvent)
    (s2 : Room311State) (h : room_311_exec room_311_init events = some s2) :
    (iidx_of (inpatient_workflow prepS transferS scanS)
        (fun a => match a with | IAct.request_room_311 => true | _ => false) <
      iidx_of (inpatient_workflow prepS transferS scanS)
        (fun a => match a with | IAct.holding_prep _ => true | _ => false) ∧
     iidx_of (inpatient_workflow prepS transferS scanS)
        (fun a => match a with | IAct.log_exited => true | _ => false) <
      iidx_of (inpatient_workflow prepS transferS scanS)
        (fun a => match a with | IAct.release_room_311 => true | _ => false) ∧
     iidx_of (inpatient_workflow prepS transferS scanS)
        (fun a => match a with | IAct.pool_put => true | _ => false) <
      iidx_of (inpatient_workflow prepS transferS scanS)
        (fun a => match a with | IAct.release_room_311 => true | _ => false) ∧
     (∀ i : ℕ, 2 ≤ i → i ≤ 14 →
       room_311_held_at (inpatient_workflow prepS transferS scanS) i = true)) ∧
    s2.holding ≤ ROOM_311_CAPACITY := by
  refine ⟨⟨?_, ?_, ?_, ?_⟩, ?_⟩
  · simp [iidx_of, inpatient_workflow, List.findIdx_cons]
  · simp [iidx_of, inpatient_workflow, List.findIdx_cons]
  · simp [iidx_of, inpatient_workflow, List.findIdx_cons]
  · intro i h1 h2
    interval_cases i <;> rfl
  · exact room_311_holding_le_capacity events room_311_init s2 h (by decide)

/-- C10 witness: after two grants out of three admissions the holding count
is at the capacity bound, and the trace-level holding facts hold at the
concrete samples (15, 5, 22). -/
theorem C10_room_311_two_holding_witness :
    room_311_exec room_311_init
        [IEvent.intake, IEvent.intake, IEvent.intake, IEvent.grant_slot, IEvent.grant_slot] =
      some ⟨1, 2, 0⟩ ∧
    (⟨1, 2, 0⟩ : Room311State).holding ≤ ROOM_311_CAPACITY ∧
    room_311_held_at (inpatient_workflow 15 5 22) 7 = true := by
  have h := C10_room_311_two_holding 15 5 22
    [IEvent.intake, IEvent.intake, IEvent.intake, IEvent.grant_slot, IEvent.grant_slot]
    ⟨1, 2, 0⟩ (by decide)
  exact ⟨by decide, h.2, h.1.2.2.2 7 (by decide) (by decide)⟩

end MRI
